import Mathlib

/-!
Verification of the burst transmission engine, sink driver failure handling,
device registry and buffer policy of the bladeRF sink
(`lib/bladerf/bladerf_sink_c.cc`, `lib/bladerf/bladerf_common.cc`).

The C++ code is shallowly embedded: the hardware transmit primitive
`bladerf_sync_tx` is an opaque blocking call returning an integer status, so
it is modelled by an oracle `Nat → Int` giving the status of the i-th
transmit call issued during one invocation, and every transmit call actually
issued is recorded in a list of `TxCall` values (source buffer, sample count,
metadata flags) in issue order.
-/

set_option autoImplicit false

/-- Kinds of GNU Radio stream tag relevant to `transmit_with_tags`:
`tx_sob` (start of burst), `tx_eob` (end of burst); any tag with another key
is ignored by the loop body. -/
inductive TagKind
  | sob
  | eob
  | other
deriving DecidableEq

/-- A stream tag as seen by the sink: absolute stream offset plus key kind. -/
structure Tag where
  offset : Nat
  kind : TagKind
deriving DecidableEq

/-- The three `bladerf_metadata` flag bits manipulated by the sink:
`BLADERF_META_FLAG_TX_NOW`, `BLADERF_META_FLAG_TX_BURST_START`,
`BLADERF_META_FLAG_TX_BURST_END`. -/
structure MetaFlags where
  txNow : Bool
  txBurstStart : Bool
  txBurstEnd : Bool
deriving DecidableEq

/-- `memset(&meta, 0, sizeof(meta))`: all flag bits cleared. -/
def flagsZero : MetaFlags := ⟨false, false, false⟩

/-- Source buffer of a `bladerf_sync_tx` call made by the sink: a position in
the interleaved conversion buffer (`&_conv_buf[i]`), or the local `zeros`
array used for the burst-end trailer. -/
inductive TxBuf
  | conv (idx : Int)
  | zeros
deriving DecidableEq

/-- One `bladerf_sync_tx` call: source buffer, sample count, metadata flags. -/
structure TxCall where
  buf : TxBuf
  count : Int
  flags : MetaFlags
deriving DecidableEq

/-- A `TxCall` is a data transmission when it reads from the conversion
buffer; the burst-end trailer instead reads from the `zeros` array. -/
def TxCall.isData (c : TxCall) : Bool :=
  match c.buf with
  | .conv _ => true
  | .zeros => false

/-- Result of one `transmit_with_tags` invocation: the returned status, the
value of `_in_burst` when the function returns, the `bladerf_sync_tx` calls
issued in order, and whether the dropped-samples diagnostic was printed. -/
structure EngineResult where
  status : Int
  inBurst : Bool
  calls : List TxCall
  dropped : Bool
deriving DecidableEq

/-- `#define INVALID_IDX -1` (bladerf_sink_c.cc line 108). -/
def INVALID_IDX : Int := -1

/-- libbladeRF's invalid-argument status code (`BLADERF_ERR_INVAL`), the
nonzero value returned by `transmit_with_tags` on a malformed tag sequence. -/
def BLADERF_ERR_INVAL : Int := -3

/-- The `BOOST_FOREACH` loop of `bladerf_sink_c::transmit_with_tags`
(lines 152-235), followed by the trailing open-segment transmit (lines
225-233) and `return status`.  Arguments after the tag list are the loop
state: `start_idx`, `end_idx`, `meta.flags`, `_in_burst`, the number of
transmit calls already issued this invocation (indexing the status oracle),
the calls issued so far, and the running `status` variable. -/
def tagLoop (oracle : Nat → Int) (nr n : Nat) :
    List Tag → Int → Int → MetaFlags → Bool → Nat → List TxCall → Int →
    EngineResult
  | [], s, e, flags, inBurst, k, calls, status =>
    if inBurst then
      ⟨oracle k, inBurst, calls ++ [⟨.conv (2 * s), e - s + 1, flags⟩], false⟩
    else
      ⟨status, inBurst, calls, false⟩
  | ⟨off, .sob⟩ :: rest, _s, e, flags, inBurst, k, calls, status =>
    if inBurst then
      ⟨BLADERF_ERR_INVAL, inBurst, calls, false⟩
    else
      tagLoop oracle nr n rest ((off : Int) - (nr : Int)) e
        ⟨true, true, flags.txBurstEnd⟩ true k calls status
  | ⟨off, .eob⟩ :: rest, s, _e, flags, inBurst, k, calls, _status =>
    if inBurst then
      if s = INVALID_IDX ∨ s > (off : Int) - (nr : Int) then
        ⟨BLADERF_ERR_INVAL, inBurst, calls, false⟩
      else
        let dataCall : TxCall :=
          ⟨.conv (2 * s), ((off : Int) - (nr : Int)) - s + 1, flags⟩
        if oracle k ≠ 0 then
          ⟨oracle k, inBurst, calls ++ [dataCall], false⟩
        else
          let trailer : TxCall := ⟨.zeros, 4, ⟨false, false, true⟩⟩
          if oracle (k + 1) ≠ 0 then
            ⟨oracle (k + 1), false, calls ++ [dataCall, trailer], false⟩
          else
            tagLoop oracle nr n rest INVALID_IDX ((n : Int) - 1) flagsZero
              false (k + 2) (calls ++ [dataCall, trailer]) 0
    else
      ⟨BLADERF_ERR_INVAL, inBurst, calls, false⟩
  | ⟨_, .other⟩ :: rest, s, e, flags, inBurst, k, calls, status =>
    tagLoop oracle nr n rest s e flags inBurst k calls status

/-- `bladerf_sink_c::transmit_with_tags(noutput_items)` (lines 110-236).
`oracle i` is the status returned by the i-th `bladerf_sync_tx` call of this
invocation, `nr` is `nitems_read(0)`, `inBurst` the entry value of
`_in_burst`, `n` is `noutput_items` and `tags` the tags in the window.  When
the tag list is empty the whole block is either transmitted as a mid-burst
continuation with zeroed metadata (`_in_burst` true) or dropped with a
diagnostic (`_in_burst` false); otherwise the tag walk `tagLoop` runs with
`start_idx = 0`, `end_idx = noutput_items - 1` and zeroed metadata. -/
def transmit_with_tags (oracle : Nat → Int) (nr : Nat) (inBurst : Bool)
    (n : Nat) (tags : List Tag) : EngineResult :=
  if tags.isEmpty then
    if inBurst then
      ⟨oracle 0, inBurst, [⟨.conv 0, (n : Int), flagsZero⟩], false⟩
    else
      ⟨0, inBurst, [], true⟩
  else
    tagLoop oracle nr n tags 0 ((n : Int) - 1) flagsZero inBurst 0 [] 0

/-- `gr::block::WORK_DONE`, the end-of-stream sentinel returned by `work`. -/
def WORK_DONE : Int := -1

/-- The failure bookkeeping at the end of `bladerf_sink_c::work` (lines
274-290): on a nonzero transmit status `_consecutive_failures` is
incremented and, once it reaches `MAX_CONSECUTIVE_FAILURES` (the threshold,
a constant from the sink header, kept as a parameter here), the return value
becomes `WORK_DONE`; on a zero status the counter resets to 0 and
`noutput_items` is returned.  Result: (return value, new counter). -/
def workStep (threshold : Nat) (ret : Int) (failures : Nat)
    (noutput_items : Int) : Int × Nat :=
  if ret ≠ 0 then
    let f := failures + 1
    if threshold ≤ f then (WORK_DONE, f) else (noutput_items, f)
  else
    (noutput_items, 0)

/-- A sequence of `work` calls observed through their transmit statuses:
threads `_consecutive_failures` through `workStep` and collects each call's
return value.  Result: (return values in order, final counter). -/
def runWork (threshold : Nat) (noutput_items : Int) :
    List Int → Nat → List Int × Nat
  | [], f => ([], f)
  | ret :: rest, f =>
    let r := workStep threshold ret f noutput_items
    let rr := runWork threshold noutput_items rest r.2
    (r.1 :: rr.1, rr.2)

/-- The externally visible actions of `bladerf_sink_c::start` and
`bladerf_common::start`, in program order. -/
inductive StartEvent
  | setInBurstFalse
  | syncConfig
  | enableModule
deriving DecidableEq

/-- `bladerf_common::start(module)` (bladerf_common.cc lines 190-219):
calls `bladerf_sync_config` (status `cfgStatus`), returning false on failure,
then `bladerf_enable_module` (status `enStatus`), returning false on failure,
else true.  Result: (return value, native calls made in order). -/
def common_start (cfgStatus enStatus : Int) : Bool × List StartEvent :=
  if cfgStatus ≠ 0 then
    (false, [.syncConfig])
  else if enStatus ≠ 0 then
    (false, [.syncConfig, .enableModule])
  else
    (true, [.syncConfig, .enableModule])

/-- `bladerf_sink_c::start()` (bladerf_sink_c.cc lines 97-101): assigns
`_in_burst = false`, then delegates to `bladerf_common::start`.
`inBurstPrev` is the value `_in_burst` had when the previous stream stopped.
Result: (return value, new `_in_burst`, events in order). -/
def sink_start (cfgStatus enStatus : Int) (inBurstPrev : Bool) :
    Bool × Bool × List StartEvent :=
  let r := common_start cfgStatus enStatus
  (r.1, false, StartEvent.setInBurstFalse :: r.2)

/-- The spec's end-to-end example: a block of 100 samples with
StartOfBurst at offset 10 and EndOfBurst at offset 60 transmits samples
[10,60] (interleaved buffer index 20, 51 samples) with the start/now flags,
then 4 zero samples with the end flag, and finishes Idle. -/
theorem end_to_end_example :
    transmit_with_tags (fun _ => 0) 0 false 100
      [⟨10, .sob⟩, ⟨60, .eob⟩] =
      ⟨0, false,
        [⟨.conv 20, 51, ⟨true, true, false⟩⟩,
         ⟨.zeros, 4, ⟨false, false, true⟩⟩], false⟩ := by
  decide

/-- C2: for an engine call with an empty annotation list, if `_in_burst` is
set the whole block of `noutput_items` samples is sent in one transmit call
with zeroed metadata flags and that call's status is returned; if `_in_burst`
is clear no transmit call is issued, the dropped-samples diagnostic is
printed, and the state stays Idle. -/
theorem C2_empty_annotation_list (oracle : Nat → Int) (nr n : Nat) :
    (transmit_with_tags oracle nr true n [] =
      ⟨oracle 0, true, [⟨.conv 0, (n : Int), flagsZero⟩], false⟩) ∧
    (transmit_with_tags oracle nr false n [] = ⟨0, false, [], true⟩) := by
  constructor <;> rfl

/-- C9: an annotation rejected with the invalid-argument error — a
StartOfBurst while already in a burst, or an EndOfBurst while idle — leaves
the burst state at return exactly as it was when the annotation was
examined: still InBurst in the first case, still Idle in the second. -/
theorem C9_rejected_annotation_preserves_state (oracle : Nat → Int)
    (nr n off : Nat) (rest : List Tag) (s e : Int) (flags : MetaFlags)
    (k : Nat) (calls : List TxCall) (status : Int) :
    ((tagLoop oracle nr n (⟨off, .sob⟩ :: rest) s e flags true k calls
        status).inBurst = true) ∧
    ((tagLoop oracle nr n (⟨off, .eob⟩ :: rest) s e flags false k calls
        status).inBurst = false) := by
  constructor <;> rfl

/-- C10: a block with no annotations arriving while Idle yields status 0
with no transmit call (and the dropped diagnostic), and `work` treats that
status as success: the failure counter is reset to 0 and all `n` input items
are reported consumed, so a dropped block never contributes to the shutdown
threshold. -/
theorem C10_dropped_block_counts_as_success (oracle : Nat → Int)
    (nr n thr c : Nat) :
    (transmit_with_tags oracle nr false n []).status = 0 ∧
    (transmit_with_tags oracle nr false n []).calls = [] ∧
    (transmit_with_tags oracle nr false n []).dropped = true ∧
    workStep thr (transmit_with_tags oracle nr false n []).status c (n : Int) =
      ((n : Int), 0) := by
  refine ⟨rfl, rfl, rfl, ?_⟩
  simp [transmit_with_tags, workStep]

/-- C8: `bladerf_sink_c::start` sets `_in_burst` to false before the stream
configuration call, whatever the burst state was when the previous stream
stopped, so the first `work` call after any start begins with no open
burst. -/
theorem C8_start_resets_burst_state (cfgStatus enStatus : Int)
    (inBurstPrev : Bool) :
    (sink_start cfgStatus enStatus inBurstPrev).2.1 = false ∧
    (sink_start cfgStatus enStatus inBurstPrev).2.2 =
      StartEvent.setInBurstFalse :: (common_start cfgStatus enStatus).2 := by
  constructor <;> rfl

/-- C1: when the tag walk, in state InBurst, reaches an EndOfBurst whose
recorded segment is valid (`start_idx` not invalid and at most the end
offset), the engine issues a data transmit of exactly the inclusive range
[start, end] — `end - start + 1` samples starting at interleaved buffer
index `2 * start` — carrying whatever flags are pending (start/now from a
StartOfBurst earlier in this call, or none if the burst began in an earlier
call); if the data transmit fails its status is returned and no trailer is
attempted; if it succeeds, a trailer of 4 zero samples with the burst-end
flag set and the start/now flags cleared is transmitted immediately, the
segment bookkeeping is reset and the state becomes Idle. -/
theorem C1_eob_segment_and_trailer (oracle : Nat → Int) (nr n off : Nat)
    (rest : List Tag) (s e : Int) (flags : MetaFlags) (k : Nat)
    (calls : List TxCall) (status : Int)
    (hs : s ≠ INVALID_IDX) (hse : s ≤ (off : Int) - (nr : Int)) :
    (oracle k ≠ 0 →
      tagLoop oracle nr n (⟨off, .eob⟩ :: rest) s e flags true k calls status =
        ⟨oracle k, true,
          calls ++
            [⟨.conv (2 * s), ((off : Int) - (nr : Int)) - s + 1, flags⟩],
          false⟩) ∧
    (oracle k = 0 → oracle (k + 1) ≠ 0 →
      tagLoop oracle nr n (⟨off, .eob⟩ :: rest) s e flags true k calls status =
        ⟨oracle (k + 1), false,
          calls ++
            [⟨.conv (2 * s), ((off : Int) - (nr : Int)) - s + 1, flags⟩,
             ⟨.zeros, 4, ⟨false, false, true⟩⟩],
          false⟩) ∧
    (oracle k = 0 → oracle (k + 1) = 0 →
      tagLoop oracle nr n (⟨off, .eob⟩ :: rest) s e flags true k calls status =
        tagLoop oracle nr n rest INVALID_IDX ((n : Int) - 1) flagsZero false
          (k + 2)
          (calls ++
            [⟨.conv (2 * s), ((off : Int) - (nr : Int)) - s + 1, flags⟩,
             ⟨.zeros, 4, ⟨false, false, true⟩⟩])
          0) := by
  have hinv : ¬(s = INVALID_IDX ∨ s > (off : Int) - (nr : Int)) := by
    push_neg
    exact ⟨hs, hse⟩
  refine ⟨fun h1 => ?_, fun h1 h2 => ?_, fun h1 h2 => ?_⟩ <;>
    simp [tagLoop, hinv, h1] <;> simp [h2]

/-- C1 witness: a concrete InBurst call reaching EndOfBurst at relative
offset 3 with pending start flags and segment start 1; both transmits
succeed, so the data segment [1,3] and the 4-zero trailer are issued and the
state returns to Idle. -/
theorem C1_witness :
    ((fun _ : Nat => (0 : Int)) 0 ≠ 0 →
      tagLoop (fun _ => 0) 0 5 [⟨3, .eob⟩] 1 4 ⟨true, true, false⟩ true 0 []
          0 =
        ⟨(fun _ : Nat => (0 : Int)) 0, true,
          [] ++ [⟨.conv (2 * 1), ((3 : Int) - (0 : Int)) - 1 + 1,
                   ⟨true, true, false⟩⟩],
          false⟩) ∧
    ((fun _ : Nat => (0 : Int)) 0 = 0 → (fun _ : Nat => (0 : Int)) 1 ≠ 0 →
      tagLoop (fun _ => 0) 0 5 [⟨3, .eob⟩] 1 4 ⟨true, true, false⟩ true 0 []
          0 =
        ⟨(fun _ : Nat => (0 : Int)) 1, false,
          [] ++ [⟨.conv (2 * 1), ((3 : Int) - (0 : Int)) - 1 + 1,
                   ⟨true, true, false⟩⟩,
                 ⟨.zeros, 4, ⟨false, false, true⟩⟩],
          false⟩) ∧
    ((fun _ : Nat => (0 : Int)) 0 = 0 → (fun _ : Nat => (0 : Int)) 1 = 0 →
      tagLoop (fun _ => 0) 0 5 [⟨3, .eob⟩] 1 4 ⟨true, true, false⟩ true 0 []
          0 =
        tagLoop (fun _ => 0) 0 5 [] INVALID_IDX ((5 : Int) - 1) flagsZero
          false 2
          ([] ++ [⟨.conv (2 * 1), ((3 : Int) - (0 : Int)) - 1 + 1,
                    ⟨true, true, false⟩⟩,
                  ⟨.zeros, 4, ⟨false, false, true⟩⟩])
          0) :=
  C1_eob_segment_and_trailer (fun _ => 0) 0 5 3 [] 1 4 ⟨true, true, false⟩ 0
    [] 0 (by decide) (by decide)

/-- C3: the three malformed-annotation cases each return the
invalid-argument error code without issuing a transmit call for that
annotation and without changing the call list: a StartOfBurst while already
InBurst, an EndOfBurst while Idle, and an EndOfBurst whose recorded segment
start exceeds its (relative) end offset. -/
theorem C3_protocol_errors (oracle : Nat → Int) (nr n off : Nat)
    (rest : List Tag) (s e : Int) (flags : MetaFlags) (k : Nat)
    (calls : List TxCall) (status : Int) :
    (tagLoop oracle nr n (⟨off, .sob⟩ :: rest) s e flags true k calls status =
      ⟨BLADERF_ERR_INVAL, true, calls, false⟩) ∧
    (tagLoop oracle nr n (⟨off, .eob⟩ :: rest) s e flags false k calls status =
      ⟨BLADERF_ERR_INVAL, false, calls, false⟩) ∧
    (s > (off : Int) - (nr : Int) →
      tagLoop oracle nr n (⟨off, .eob⟩ :: rest) s e flags true k calls
          status =
        ⟨BLADERF_ERR_INVAL, true, calls, false⟩) := by
  refine ⟨rfl, rfl, fun hgt => ?_⟩
  simp [tagLoop, hgt]

/-- C3 witness: with segment start 7 and an EndOfBurst at relative offset 2
(inverted segment), the walk returns the invalid-argument code and issues no
transmit call; the SOB-while-InBurst and EOB-while-Idle cases are
instantiated alongside. -/
theorem C3_witness :
    (tagLoop (fun _ => 0) 0 9 [⟨2, .sob⟩] 7 8 flagsZero true 0 [] 0 =
      ⟨BLADERF_ERR_INVAL, true, [], false⟩) ∧
    (tagLoop (fun _ => 0) 0 9 [⟨2, .eob⟩] 7 8 flagsZero false 0 [] 0 =
      ⟨BLADERF_ERR_INVAL, false, [], false⟩) ∧
    ((7 : Int) > (2 : Int) - (0 : Int) →
      tagLoop (fun _ => 0) 0 9 [⟨2, .eob⟩] 7 8 flagsZero true 0 [] 0 =
        ⟨BLADERF_ERR_INVAL, true, [], false⟩) :=
  C3_protocol_errors (fun _ => 0) 0 9 2 [] 7 8 flagsZero 0 [] 0

/-- C4 counterexample: a burst whose StartOfBurst arrives in one engine call
(block of 4 samples, SOB at relative offset 0) and whose EndOfBurst arrives
in the next call (next block of 4, EOB at relative offset 1) produces TWO
data transmit calls — the open-segment transmit at the end of the first call
(carrying the start/now flags) and the closing-segment transmit at the
EndOfBurst (no flags) — not exactly one as the claim states for a burst
closed in a later block; the trailer is issued once, last. -/
theorem C4_counterexample :
    ((transmit_with_tags (fun _ => 0) 0 false 4 [⟨0, .sob⟩]).inBurst =
      true) ∧
    (((transmit_with_tags (fun _ => 0) 0 false 4 [⟨0, .sob⟩]).calls ++
        (transmit_with_tags (fun _ => 0) 4
          (transmit_with_tags (fun _ => 0) 0 false 4 [⟨0, .sob⟩]).inBurst 4
          [⟨5, .eob⟩]).calls).countP TxCall.isData = 2) ∧
    (2 : Nat) ≠ 1 ∧
    ((transmit_with_tags (fun _ => 0) 0 false 4 [⟨0, .sob⟩]).calls =
      [⟨.conv 0, 4, ⟨true, true, false⟩⟩]) ∧
    ((transmit_with_tags (fun _ => 0) 4
        (transmit_with_tags (fun _ => 0) 0 false 4 [⟨0, .sob⟩]).inBurst 4
        [⟨5, .eob⟩]).calls =
      [⟨.conv 0, 2, flagsZero⟩, ⟨.zeros, 4, ⟨false, false, true⟩⟩]) := by
  exact ⟨rfl, rfl, by decide, rfl, rfl⟩

/-- C4 (amended), with the per-call transmit pattern of both burst shapes,
for any all-succeeding transmit oracle.  First conjunct — a burst opened and
closed within one engine call (entered Idle, annotations exactly its
StartOfBurst then its EndOfBurst, valid offsets): exactly one data transmit
and exactly one 4-zero trailer, in that order, start/now flags only on the
data call, finishing Idle.  Remaining conjuncts — a burst closed in a later
call, call by call with the burst state threaded explicitly: the opening
call (entered Idle, its StartOfBurst the only annotation) issues exactly
one data transmit, the open segment to the end of the block with the
start/now flags, and leaves the state InBurst; each continuation call (no
annotations, InBurst) issues exactly one data transmit of the whole block
with no flags and stays InBurst; the closing call (InBurst, its EndOfBurst
the only annotation, valid offset) issues exactly one data transmit of the
closing segment with no flags followed by exactly one 4-zero trailer with
the end flag, last, and returns the state to Idle.  Hence a spanning burst
gets one data transmit per call it spans, start flags only on the first,
and exactly one trailer. -/
theorem C4_burst_call_pattern (oracle : Nat → Int)
    (nr n so eo nr1 n1 so1 nrm m nr2 n2 eo2 : Nat)
    (h0 : ∀ i, oracle i = 0)
    (hso : nr ≤ so) (hse : so ≤ eo) (heo2 : nr2 ≤ eo2) :
    (transmit_with_tags oracle nr false n [⟨so, .sob⟩, ⟨eo, .eob⟩] =
      ⟨0, false,
        [⟨.conv (2 * ((so : Int) - (nr : Int))),
          ((eo : Int) - (nr : Int)) - ((so : Int) - (nr : Int)) + 1,
          ⟨true, true, false⟩⟩,
         ⟨.zeros, 4, ⟨false, false, true⟩⟩],
        false⟩) ∧
    (transmit_with_tags oracle nr1 false n1 [⟨so1, .sob⟩] =
      ⟨0, true,
        [⟨.conv (2 * ((so1 : Int) - (nr1 : Int))),
          ((n1 : Int) - 1) - ((so1 : Int) - (nr1 : Int)) + 1,
          ⟨true, true, false⟩⟩],
        false⟩) ∧
    (transmit_with_tags oracle nrm true m [] =
      ⟨0, true, [⟨.conv 0, (m : Int), flagsZero⟩], false⟩) ∧
    (transmit_with_tags oracle nr2 true n2 [⟨eo2, .eob⟩] =
      ⟨0, false,
        [⟨.conv 0, (eo2 : Int) - (nr2 : Int) + 1, flagsZero⟩,
         ⟨.zeros, 4, ⟨false, false, true⟩⟩],
        false⟩) := by
  refine ⟨?_, ?_, ?_, ?_⟩
  · have hinv : ¬((so : Int) - (nr : Int) = INVALID_IDX ∨
        (so : Int) - (nr : Int) > (eo : Int) - (nr : Int)) := by
      push_neg
      constructor
      · simp only [INVALID_IDX]
        omega
      · omega
    simp [transmit_with_tags, tagLoop, flagsZero, hinv, h0]
    exact ⟨fun h => hinv (Or.inl h), hse⟩
  · simp [transmit_with_tags, tagLoop, flagsZero, h0]
  · simp [transmit_with_tags, h0]
  · have hinv : ¬((0 : Int) = INVALID_IDX ∨
        (0 : Int) > (eo2 : Int) - (nr2 : Int)) := by
      push_neg
      constructor
      · simp only [INVALID_IDX]
        omega
      · omega
    simp [transmit_with_tags, tagLoop, flagsZero, hinv, h0]
    omega

/-- C4 witness: with every transmit succeeding — single-call burst SOB@1,
EOB@2 in a block of 4 gives one data call for [1,2] with start/now flags
then the trailer; opening call SOB@1 in a block of 4 gives the open segment
[1,3] with start/now flags, still InBurst; a continuation block of 4 gives
one unflagged whole-block call, still InBurst; closing call EOB@9 at
nitems_read 8 gives the closing segment [0,1] unflagged then the trailer,
back to Idle. -/
theorem C4_witness :
    (transmit_with_tags (fun _ => 0) 0 false 4 [⟨1, .sob⟩, ⟨2, .eob⟩] =
      ⟨0, false,
        [⟨.conv (2 * ((1 : Int) - (0 : Int))),
          ((2 : Int) - (0 : Int)) - ((1 : Int) - (0 : Int)) + 1,
          ⟨true, true, false⟩⟩,
         ⟨.zeros, 4, ⟨false, false, true⟩⟩],
        false⟩) ∧
    (transmit_with_tags (fun _ => 0) 0 false 4 [⟨1, .sob⟩] =
      ⟨0, true,
        [⟨.conv (2 * ((1 : Int) - (0 : Int))),
          ((4 : Int) - 1) - ((1 : Int) - (0 : Int)) + 1,
          ⟨true, true, false⟩⟩],
        false⟩) ∧
    (transmit_with_tags (fun _ => 0) 4 true 4 [] =
      ⟨0, true, [⟨.conv 0, (4 : Int), flagsZero⟩], false⟩) ∧
    (transmit_with_tags (fun _ => 0) 8 true 4 [⟨9, .eob⟩] =
      ⟨0, false,
        [⟨.conv 0, (9 : Int) - (8 : Int) + 1, flagsZero⟩,
         ⟨.zeros, 4, ⟨false, false, true⟩⟩],
        false⟩) :=
  C4_burst_call_pattern (fun _ => 0) 0 4 1 2 0 4 1 4 4 8 4 9
    (fun _ => rfl) (by decide) (by decide) (by decide)

/-- Over an all-failing status sequence, `_consecutive_failures` counts up
by one per call and the i-th call returns the sentinel exactly when the
incremented counter has reached the threshold. -/
theorem runWork_all_failures (thr : Nat) (n : Int) (l : List Int) :
    (∀ s ∈ l, s ≠ 0) → ∀ c : Nat,
      runWork thr n l c =
        ((List.range l.length).map
          (fun i => if thr ≤ c + i + 1 then WORK_DONE else n),
         c + l.length) := by
  induction l with
  | nil => intro _ c; simp [runWork]
  | cons ret rest ih =>
    intro h c
    have hr : ret ≠ 0 := h ret (List.mem_cons_self _ _)
    have ih' := ih (fun s hs => h s (List.mem_cons_of_mem _ hs)) (c + 1)
    have hmap : (List.range (rest.length + 1)).map
        (fun i => if thr ≤ c + i + 1 then WORK_DONE else n) =
        (if thr ≤ c + 1 then WORK_DONE else n) ::
          (List.range rest.length).map
            (fun i => if thr ≤ c + 1 + i + 1 then WORK_DONE else n) := by
      rw [List.range_succ_eq_map, List.map_cons, List.map_map]
      refine congrArg₂ (· :: ·) (if_congr (by omega) rfl rfl) ?_
      refine List.map_congr_left fun i _ => ?_
      simp only [Function.comp_apply]
      exact if_congr (by omega) rfl rfl
    simp only [List.length_cons, hmap, runWork, workStep, if_pos hr]
    by_cases hc : thr ≤ c + 1 <;>
      simp only [hc, ite_true, ite_false] <;>
      rw [ih'] <;>
      simp only [Prod.mk.injEq, true_and] <;>
      omega

/-- `runWork` distributes over list append, threading the counter. -/
theorem runWork_append (thr : Nat) (n : Int) (l1 l2 : List Int) :
    ∀ c, runWork thr n (l1 ++ l2) c =
      ((runWork thr n l1 c).1 ++
         (runWork thr n l2 (runWork thr n l1 c).2).1,
       (runWork thr n l2 (runWork thr n l1 c).2).2) := by
  induction l1 with
  | nil => intro c; simp [runWork]
  | cons ret rest ih => intro c; simp [runWork, ih]

/-- C7: a nonzero transmit status increments the consecutive-failure
counter and the call returns the end-of-stream sentinel exactly when the
incremented counter reaches the threshold; a zero status resets the counter
to 0 and returns the item count.  Consequently, starting from a zero
counter, a run of exactly threshold-many consecutive failing calls returns
the item count on every call but the last, which returns the sentinel; and
any call whose transmit succeeds — in particular the last of a sequence
ending in a success — returns the item count, never the sentinel. -/
theorem C7_consecutive_failure_shutdown (thr : Nat) (n ret : Int) (c : Nat)
    (l : List Int) (hthr : 1 ≤ thr) :
    (ret ≠ 0 →
      workStep thr ret c n = (if thr ≤ c + 1 then WORK_DONE else n, c + 1)) ∧
    (ret = 0 → workStep thr ret c n = (n, 0)) ∧
    ((∀ s ∈ l, s ≠ 0) → l.length = thr →
      (runWork thr n l 0).1 = List.replicate (thr - 1) n ++ [WORK_DONE]) ∧
    ((runWork thr n (l ++ [0]) 0).1.getLast? = some n) := by
  refine ⟨fun hr => by
      simp only [workStep, hr, ne_eq, not_false_eq_true, if_true]
      by_cases hc : thr ≤ c + 1 <;> simp [hc],
    fun hr => by simp [workStep, hr], fun h hl => ?_, ?_⟩
  · obtain ⟨m, rfl⟩ : ∃ m, thr = m + 1 :=
      ⟨thr - 1, by omega⟩
    rw [runWork_all_failures (m + 1) n l h 0]
    simp only [hl, List.range_succ, List.map_append, List.map_cons,
      List.map_nil, Nat.add_sub_cancel]
    refine congrArg₂ (· ++ ·) ?_ (by simp)
    have hrep : ∀ b ∈ (List.range m).map
        (fun i => if m + 1 ≤ 0 + i + 1 then WORK_DONE else n), b = n := by
      intro b hb
      simp only [List.mem_map, List.mem_range] at hb
      obtain ⟨i, hi, rfl⟩ := hb
      rw [if_neg (by omega)]
    calc (List.range m).map (fun i => if m + 1 ≤ 0 + i + 1 then WORK_DONE
          else n)
        = List.replicate (((List.range m).map (fun i =>
            if m + 1 ≤ 0 + i + 1 then WORK_DONE else n)).length) n :=
          List.eq_replicate_of_mem hrep
      _ = List.replicate m n := by simp
  · rw [runWork_append]
    have hlast : runWork thr n [0] (runWork thr n l 0).2 = ([n], 0) := by
      simp [runWork, workStep]
    rw [hlast]
    show ((runWork thr n l 0).1 ++ [n]).getLast? = some n
    exact List.getLast?_concat _

/-- C7 witness: with threshold 2 and item count 5, a failing status
increments the counter without yet tripping the threshold, two consecutive
failing calls from a zero counter return 5 then the sentinel, and a
sequence ending in a success returns 5 on its last call. -/
theorem C7_witness :
    (((3 : Int) ≠ 0 →
      workStep 2 3 0 5 = (if 2 ≤ 0 + 1 then WORK_DONE else 5, 0 + 1)) ∧
    ((3 : Int) = 0 → workStep 2 3 0 5 = (5, 0)) ∧
    ((∀ s ∈ [(1 : Int), 1], s ≠ 0) → [(1 : Int), 1].length = 2 →
      (runWork 2 5 [1, 1] 0).1 = List.replicate (2 - 1) 5 ++ [WORK_DONE]) ∧
    ((runWork 2 5 ([1, 1] ++ [0]) 0).1.getLast? = some 5)) :=
  C7_consecutive_failure_shutdown 2 5 3 0 [1, 1] (by decide)

/-- `#define NUM_BUFFERS 32` (bladerf_common.cc line 43). -/
def NUM_BUFFERS : Nat := 32

/-- `#define NUM_SAMPLES_PER_BUFFER (4 * 1024)` (bladerf_common.cc line 44). -/
def NUM_SAMPLES_PER_BUFFER : Nat := 4 * 1024

/-- The buffering keys of the device-argument dictionary consumed by
`bladerf_common::init`; `none` models an absent key, `some v` a key whose
value parses (via `boost::lexical_cast<size_t>`) to `v`. -/
structure StreamDict where
  buffers : Option Nat
  buflen : Option Nat
  transfers : Option Nat
  stream_timeout_ms : Option Nat
deriving DecidableEq

/-- The streaming parameters derived by `bladerf_common::init`, plus whether
each of the two validation warnings was printed. -/
structure StreamParams where
  num_buffers : Nat
  samples_per_buffer : Nat
  num_transfers : Nat
  stream_timeout_ms : Nat
  warn_buflen : Bool
  warn_transfers : Bool
deriving DecidableEq

/-- The buffer/sample-configuration tail of `bladerf_common::init`
(bladerf_common.cc lines 427-484): each `_num_*` member starts at 0 (3000
for the timeout) and is overwritten by its dictionary key if present; then
`_num_buffers <= 1` falls back to `NUM_BUFFERS`; a `_samples_per_buffer`
that is 0 becomes `NUM_SAMPLES_PER_BUFFER` silently, and one that is
nonzero but below 1024 or not a multiple of 1024 becomes
`NUM_SAMPLES_PER_BUFFER` with a warning; an unset (0) `_num_transfers`
becomes `_num_buffers / 2` capped at 32, and one at least `_num_buffers` is
clamped to `_num_buffers - 1` with a warning. -/
def init_stream_params (dict : StreamDict) : StreamParams :=
  let nb0 := dict.buffers.getD 0
  let spb0 := dict.buflen.getD 0
  let nt0 := dict.transfers.getD 0
  let timeout := dict.stream_timeout_ms.getD 3000
  let nb := if nb0 ≤ 1 then NUM_BUFFERS else nb0
  let spbWarn :=
    if spb0 = 0 then (NUM_SAMPLES_PER_BUFFER, false)
    else if spb0 < 1024 ∨ spb0 % 1024 ≠ 0 then (NUM_SAMPLES_PER_BUFFER, true)
    else (spb0, false)
  let ntWarn :=
    if nt0 = 0 then
      (if nb / 2 > 32 then 32 else nb / 2, false)
    else if nb ≤ nt0 then (nb - 1, true)
    else (nt0, false)
  { num_buffers := nb
    samples_per_buffer := spbWarn.1
    num_transfers := ntWarn.1
    stream_timeout_ms := timeout
    warn_buflen := spbWarn.2
    warn_transfers := ntWarn.2 }

theorem isp_num_buffers (dict : StreamDict) :
    (init_stream_params dict).num_buffers =
      (match dict.buffers with
       | none => 32
       | some v => if v ≤ 1 then 32 else v) := by
  obtain ⟨b, bl, t, tm⟩ := dict
  cases b with
  | none => simp [init_stream_params, NUM_BUFFERS]
  | some v =>
    by_cases hv : v ≤ 1 <;> simp [init_stream_params, NUM_BUFFERS, hv]

theorem isp_samples_per_buffer (dict : StreamDict) :
    (init_stream_params dict).samples_per_buffer =
      (match dict.buflen with
       | none => 4096
       | some v => if 1024 ≤ v ∧ v % 1024 = 0 then v else 4096) := by
  obtain ⟨b, bl, t, tm⟩ := dict
  cases bl with
  | none => simp [init_stream_params, NUM_SAMPLES_PER_BUFFER]
  | some v =>
    by_cases h0 : v = 0
    · subst h0
      simp [init_stream_params, NUM_SAMPLES_PER_BUFFER]
    · simp only [init_stream_params, Option.getD_some,
        NUM_SAMPLES_PER_BUFFER]
      split_ifs <;> simp_all <;> omega

theorem isp_warn_buflen (dict : StreamDict) :
    ((init_stream_params dict).warn_buflen = true ↔
      ∃ v, dict.buflen = some v ∧ v ≠ 0 ∧ (v < 1024 ∨ v % 1024 ≠ 0)) := by
  obtain ⟨b, bl, t, tm⟩ := dict
  cases bl with
  | none => simp [init_stream_params]
  | some v =>
    by_cases h0 : v = 0
    · subst h0
      simp [init_stream_params]
    · by_cases hb : v < 1024 ∨ v % 1024 ≠ 0 <;>
        simp [init_stream_params, h0, hb]

theorem isp_num_transfers (dict : StreamDict) :
    (init_stream_params dict).num_transfers =
      (match dict.transfers with
       | none => min ((init_stream_params dict).num_buffers / 2) 32
       | some v =>
         if v = 0 then min ((init_stream_params dict).num_buffers / 2) 32
         else if (init_stream_params dict).num_buffers ≤ v then
           (init_stream_params dict).num_buffers - 1
         else v) := by
  obtain ⟨b, bl, t, tm⟩ := dict
  have hnb : (init_stream_params ⟨b, bl, t, tm⟩).num_buffers =
      (if b.getD 0 ≤ 1 then NUM_BUFFERS else b.getD 0) := by
    simp [init_stream_params]
  cases t with
  | none =>
    simp only [init_stream_params, Option.getD_none, hnb]
    rw [Nat.min_def]
    split_ifs <;> omega
  | some w =>
    by_cases h0 : w = 0
    · subst h0
      simp only [init_stream_params, Option.getD_some, hnb, if_pos rfl,
        ite_true]
      rw [Nat.min_def]
      split_ifs <;> omega
    · by_cases hw : (if b.getD 0 ≤ 1 then NUM_BUFFERS else b.getD 0) ≤ w <;>
        simp only [init_stream_params, Option.getD_some, hnb, h0, if_neg h0,
          hw, if_pos, if_neg, ite_true, ite_false] <;>
        split_ifs <;> omega

theorem isp_warn_transfers (dict : StreamDict) :
    ((init_stream_params dict).warn_transfers = true ↔
      ∃ v, dict.transfers = some v ∧ v ≠ 0 ∧
        (init_stream_params dict).num_buffers ≤ v) := by
  obtain ⟨b, bl, t, tm⟩ := dict
  have hnb : (init_stream_params ⟨b, bl, t, tm⟩).num_buffers =
      (if b.getD 0 ≤ 1 then NUM_BUFFERS else b.getD 0) := by
    simp [init_stream_params]
  cases t with
  | none => simp [init_stream_params]
  | some w =>
    by_cases h0 : w = 0
    · subst h0
      simp [init_stream_params]
    · by_cases hw : (if b.getD 0 ≤ 1 then NUM_BUFFERS else b.getD 0) ≤ w <;>
        simp [init_stream_params, h0, hw, hnb]

theorem isp_timeout (dict : StreamDict) :
    (init_stream_params dict).stream_timeout_ms =
      dict.stream_timeout_ms.getD 3000 := by
  obtain ⟨b, bl, t, tm⟩ := dict
  simp [init_stream_params]

theorem isp_invariants (dict : StreamDict) :
    2 ≤ (init_stream_params dict).num_buffers ∧
    0 < (init_stream_params dict).samples_per_buffer ∧
    (init_stream_params dict).samples_per_buffer % 1024 = 0 ∧
    1 ≤ (init_stream_params dict).num_transfers ∧
    (init_stream_params dict).num_transfers <
      (init_stream_params dict).num_buffers := by
  have hnb := isp_num_buffers dict
  have hspb := isp_samples_per_buffer dict
  have hnt := isp_num_transfers dict
  have h2 : 2 ≤ (init_stream_params dict).num_buffers := by
    rw [hnb]
    rcases hb : dict.buffers with _ | v
    · decide
    · dsimp only
      split_ifs <;> omega
  refine ⟨h2, ?_, ?_, ?_, ?_⟩
  · rw [hspb]
    rcases hb : dict.buflen with _ | v
    · decide
    · dsimp only
      split_ifs with h <;> omega
  · rw [hspb]
    rcases hb : dict.buflen with _ | v
    · decide
    · dsimp only
      split_ifs with h <;> omega
  · rw [hnt]
    rcases ht : dict.transfers with _ | w
    · dsimp only
      omega
    · dsimp only
      split_ifs <;> omega
  · rw [hnt]
    rcases ht : dict.transfers with _ | w
    · dsimp only
      omega
    · dsimp only
      split_ifs <;> omega

/-- C6 counterexample: a supplied `buflen` of 0 — a value that is not a
positive multiple of 1024 — falls back to the 4096 default but emits no
warning, contradicting the claim that a warning accompanies every bad
supplied value. -/
theorem C6_counterexample :
    StreamDict.buflen ⟨none, some 0, none, none⟩ = some 0 ∧
    (0 : Nat) < 1024 ∧
    (init_stream_params ⟨none, some 0, none, none⟩).samples_per_buffer =
      4096 ∧
    (init_stream_params ⟨none, some 0, none, none⟩).warn_buflen = false := by
  exact ⟨rfl, by decide, rfl, rfl⟩

/-- C6 (amended): for every configuration input the derived parameters
satisfy: bufferCount is 32 when unset or at most 1, else the supplied
value; samplesPerBuffer is 4096 when unset or when the supplied value is
not a positive multiple of 1024, else the supplied value, with a warning
exactly when a bad nonzero value was supplied (a supplied 0 is treated as
unset, silently); transferCount is min(bufferCount / 2, 32) when unset (or
supplied as 0), is clamped to bufferCount - 1 with a warning when a nonzero
supplied value reaches bufferCount, and is otherwise the supplied value;
timeoutMs defaults to 3000; and the results always satisfy bufferCount ≥ 2,
samplesPerBuffer a positive multiple of 1024, and
1 ≤ transferCount < bufferCount. -/
theorem C6_stream_params (dict : StreamDict) :
    ((init_stream_params dict).num_buffers =
      (match dict.buffers with
       | none => 32
       | some v => if v ≤ 1 then 32 else v)) ∧
    ((init_stream_params dict).samples_per_buffer =
      (match dict.buflen with
       | none => 4096
       | some v => if 1024 ≤ v ∧ v % 1024 = 0 then v else 4096)) ∧
    ((init_stream_params dict).warn_buflen = true ↔
      ∃ v, dict.buflen = some v ∧ v ≠ 0 ∧ (v < 1024 ∨ v % 1024 ≠ 0)) ∧
    ((init_stream_params dict).num_transfers =
      (match dict.transfers with
       | none => min ((init_stream_params dict).num_buffers / 2) 32
       | some v =>
         if v = 0 then min ((init_stream_params dict).num_buffers / 2) 32
         else if (init_stream_params dict).num_buffers ≤ v then
           (init_stream_params dict).num_buffers - 1
         else v)) ∧
    ((init_stream_params dict).warn_transfers = true ↔
      ∃ v, dict.transfers = some v ∧ v ≠ 0 ∧
        (init_stream_params dict).num_buffers ≤ v) ∧
    ((init_stream_params dict).stream_timeout_ms =
      dict.stream_timeout_ms.getD 3000) ∧
    2 ≤ (init_stream_params dict).num_buffers ∧
    0 < (init_stream_params dict).samples_per_buffer ∧
    (init_stream_params dict).samples_per_buffer % 1024 = 0 ∧
    1 ≤ (init_stream_params dict).num_transfers ∧
    (init_stream_params dict).num_transfers <
      (init_stream_params dict).num_buffers := by
  obtain ⟨hi1, hi2, hi3, hi4, hi5⟩ := isp_invariants dict
  exact ⟨isp_num_buffers dict, isp_samples_per_buffer dict,
    isp_warn_buflen dict, isp_num_transfers dict, isp_warn_transfers dict,
    isp_timeout dict, hi1, hi2, hi3, hi4, hi5⟩

/-- One entry of the process-wide device cache `_devs`: a weak reference,
modelled as the descriptor it matches, the native handle it wraps, and the
number of shared references currently outstanding (0 = expired). -/
structure DevEntry where
  devinfo : Nat
  handle : Nat
  refcount : Nat
deriving DecidableEq

/-- Lock and native-library operations performed by the registry, in
program order; `bladerf_common::open` and `bladerf_common::close` each hold
`_devs_mutex` (a `boost::unique_lock`) for their whole body. -/
inductive RegEvent
  | lockAcquire
  | lockRelease
  | nativeOpen
  | nativeClose
deriving DecidableEq

/-- The registry state: the `_devs` cache plus a supply of fresh native
handles (every live entry's handle is below `nextHandle`). -/
structure Registry where
  devs : List DevEntry
  nextHandle : Nat
deriving DecidableEq

/-- `bladerf_common::get_cached_device(devinfo)` (bladerf_common.cc lines
65-83): scans `_devs` for a non-expired entry whose device info matches the
descriptor, returning its handle. -/
def get_cached_device (devs : List DevEntry) (d : Nat) : Option Nat :=
  (devs.find? fun e => decide (0 < e.refcount ∧ e.devinfo = d)).map
    (fun e => e.handle)

/-- Copying the cached shared pointer out of the registry increments the
handle's reference count. -/
def bumpRef (devs : List DevEntry) (h : Nat) : List DevEntry :=
  devs.map fun e =>
    if e.handle = h then { e with refcount := e.refcount + 1 } else e

/-- `bladerf_common::open(device_name)` (lines 103-131), after the external
matcher `bladerf_get_devinfo_from_str` has resolved the name to descriptor
`d`: under the `_devs_mutex` lock, a cached non-expired matching entry is
returned as a new shared reference to the same native connection; otherwise
`bladerf_open_with_devinfo` opens a new native connection and a weak entry
is registered.  Result: (handle, new registry, events in order). -/
def open_dev (r : Registry) (d : Nat) : Nat × Registry × List RegEvent :=
  match get_cached_device r.devs d with
  | some h =>
    (h, ⟨bumpRef r.devs h, r.nextHandle⟩,
     [.lockAcquire, .lockRelease])
  | none =>
    (r.nextHandle,
     ⟨r.devs ++ [⟨d, r.nextHandle, 1⟩], r.nextHandle + 1⟩,
     [.lockAcquire, .nativeOpen, .lockRelease])

/-- `bladerf_common::close(dev)` (lines 86-101), the shared-pointer deleter
run when a handle's reference count reaches 0: under the `_devs_mutex`
lock, prunes every expired (zero-refcount) entry from the cache and calls
`bladerf_close` once. -/
def close_dev (devs : List DevEntry) : List DevEntry × List RegEvent :=
  (devs.filter fun e => decide (0 < e.refcount),
   [.lockAcquire, .nativeClose, .lockRelease])

/-- Releasing one shared reference to handle `h`: the reference count drops
by one; when it hits zero the deleter `bladerf_common::close` runs (per the
source comment "This is called when a bladerf_sptr hits a refcount of 0").
Result: (new registry, events performed). -/
def release (r : Registry) (h : Nat) : Registry × List RegEvent :=
  let devs1 := r.devs.map fun e =>
    if e.handle = h then { e with refcount := e.refcount - 1 } else e
  if devs1.any fun e => decide (e.handle = h ∧ e.refcount = 0) then
    let c := close_dev devs1
    (⟨c.1, r.nextHandle⟩, c.2)
  else
    (⟨devs1, r.nextHandle⟩, [])

/-- Combined reference count outstanding on handle `h`. -/
def refcountOf (devs : List DevEntry) (h : Nat) : Nat :=
  (devs.map fun e => if e.handle = h then e.refcount else 0).sum

/-- Updating only the entry with a handle no list member carries leaves the
list unchanged. -/
theorem map_update_fresh (devs : List DevEntry) (N : Nat)
    (hfr : ∀ e ∈ devs, e.handle < N) (f : DevEntry → DevEntry) :
    (devs.map fun e => if e.handle = N then f e else e) = devs := by
  have h : ∀ e ∈ devs, (if e.handle = N then f e else e) = id e := by
    intro e he
    simp only [id_eq]
    rw [if_neg (Nat.ne_of_lt (hfr e he))]
  rw [List.map_congr_left h, List.map_id]

/-- C5: starting from any registry that has no live entry for descriptor
`d` (and whose handles are all below the fresh-handle supply), a first
`open` performs the native open under the registry lock and returns a fresh
handle; a second `open` for the same descriptor returns the same handle
with no native open — only the lock is taken — leaving a combined
reference count of 2; releasing one reference closes nothing; releasing the
last reference runs the native close exactly once, under the lock, and the
resulting cache holds neither the closed handle nor any expired
(zero-refcount) entry. -/
theorem C5_registry_dedup_refcount_close (r : Registry) (d : Nat)
    (hc : get_cached_device r.devs d = none)
    (hf : ∀ e ∈ r.devs, e.handle < r.nextHandle) :
    open_dev r d = (r.nextHandle,
      ⟨r.devs ++ [⟨d, r.nextHandle, 1⟩], r.nextHandle + 1⟩,
      [.lockAcquire, .nativeOpen, .lockRelease]) ∧
    open_dev (open_dev r d).2.1 d = ((open_dev r d).1,
      ⟨r.devs ++ [⟨d, r.nextHandle, 2⟩], r.nextHandle + 1⟩,
      [.lockAcquire, .lockRelease]) ∧
    refcountOf (open_dev (open_dev r d).2.1 d).2.1.devs (open_dev r d).1 =
      2 ∧
    release (open_dev (open_dev r d).2.1 d).2.1 (open_dev r d).1 =
      (⟨r.devs ++ [⟨d, r.nextHandle, 1⟩], r.nextHandle + 1⟩, []) ∧
    release (release (open_dev (open_dev r d).2.1 d).2.1
        (open_dev r d).1).1 (open_dev r d).1 =
      (⟨r.devs.filter fun e => decide (0 < e.refcount), r.nextHandle + 1⟩,
       [.lockAcquire, .nativeClose, .lockRelease]) ∧
    ∀ e ∈ (release (release (open_dev (open_dev r d).2.1 d).2.1
        (open_dev r d).1).1 (open_dev r d).1).1.devs,
      e.handle ≠ (open_dev r d).1 ∧ 0 < e.refcount := by
  have hfind : r.devs.find?
      (fun e => decide (0 < e.refcount ∧ e.devinfo = d)) = none := by
    have h := hc
    unfold get_cached_device at h
    exact Option.map_eq_none'.mp h
  have hopen1 : open_dev r d = (r.nextHandle,
      ⟨r.devs ++ [⟨d, r.nextHandle, 1⟩], r.nextHandle + 1⟩,
      [.lockAcquire, .nativeOpen, .lockRelease]) := by
    unfold open_dev
    rw [hc]
  have hcached2 : get_cached_device (r.devs ++ [⟨d, r.nextHandle, 1⟩]) d =
      some r.nextHandle := by
    unfold get_cached_device
    rw [List.find?_append, hfind]
    simp [List.find?]
  have hbump : bumpRef (r.devs ++ [⟨d, r.nextHandle, 1⟩]) r.nextHandle =
      r.devs ++ [⟨d, r.nextHandle, 2⟩] := by
    unfold bumpRef
    rw [List.map_append, map_update_fresh r.devs r.nextHandle hf]
    simp
  have hopen2 : open_dev ⟨r.devs ++ [⟨d, r.nextHandle, 1⟩],
      r.nextHandle + 1⟩ d = (r.nextHandle,
      ⟨r.devs ++ [⟨d, r.nextHandle, 2⟩], r.nextHandle + 1⟩,
      [.lockAcquire, .lockRelease]) := by
    unfold open_dev
    simp only [hcached2, hbump]
  have hrefcount : refcountOf (r.devs ++ [⟨d, r.nextHandle, 2⟩])
      r.nextHandle = 2 := by
    unfold refcountOf
    rw [List.map_append, List.sum_append]
    have h0 : ((r.devs.map fun e =>
        if e.handle = r.nextHandle then e.refcount else 0)).sum = 0 := by
      refine List.sum_eq_zero ?_
      intro x hx
      simp only [List.mem_map] at hx
      obtain ⟨e, he, rfl⟩ := hx
      rw [if_neg (Nat.ne_of_lt (hf e he))]
    rw [h0]
    simp
  have hdec1 : ((r.devs ++ ([⟨d, r.nextHandle, 2⟩] : List DevEntry)).map
      fun e : DevEntry =>
        if e.handle = r.nextHandle then { e with refcount := e.refcount - 1 }
        else e) = r.devs ++ [⟨d, r.nextHandle, 1⟩] := by
    rw [List.map_append, map_update_fresh r.devs r.nextHandle hf]
    simp
  have hany1 : ((r.devs ++ ([⟨d, r.nextHandle, 1⟩] : List DevEntry)).any
      fun e => decide (e.handle = r.nextHandle ∧ e.refcount = 0)) =
      false := by
    rw [List.any_eq_false]
    intro e he
    rcases List.mem_append.mp he with h1 | h2
    · simp only [decide_eq_true_eq]
      intro hcon
      exact absurd hcon.1 (Nat.ne_of_lt (hf e h1))
    · simp only [List.mem_singleton] at h2
      subst h2
      simp
  have hrel1 : release ⟨r.devs ++ [⟨d, r.nextHandle, 2⟩],
      r.nextHandle + 1⟩ r.nextHandle =
      (⟨r.devs ++ [⟨d, r.nextHandle, 1⟩], r.nextHandle + 1⟩, []) := by
    simp only [release, hdec1, hany1, Bool.false_eq_true, if_false]
  have hdec2 : ((r.devs ++ ([⟨d, r.nextHandle, 1⟩] : List DevEntry)).map
      fun e : DevEntry =>
        if e.handle = r.nextHandle then { e with refcount := e.refcount - 1 }
        else e) = r.devs ++ [⟨d, r.nextHandle, 0⟩] := by
    rw [List.map_append, map_update_fresh r.devs r.nextHandle hf]
    simp
  have hany2 : ((r.devs ++ ([⟨d, r.nextHandle, 0⟩] : List DevEntry)).any
      fun e => decide (e.handle = r.nextHandle ∧ e.refcount = 0)) =
      true := by
    rw [List.any_eq_true]
    exact ⟨⟨d, r.nextHandle, 0⟩, List.mem_append_right _ (by simp), by simp⟩
  have hfilter : (r.devs ++ ([⟨d, r.nextHandle, 0⟩] : List DevEntry)).filter
      (fun e => decide (0 < e.refcount)) =
      r.devs.filter fun e => decide (0 < e.refcount) := by
    rw [List.filter_append]
    simp
  have hrel2 : release ⟨r.devs ++ [⟨d, r.nextHandle, 1⟩],
      r.nextHandle + 1⟩ r.nextHandle =
      (⟨r.devs.filter fun e => decide (0 < e.refcount), r.nextHandle + 1⟩,
       [.lockAcquire, .nativeClose, .lockRelease]) := by
    simp only [release, close_dev, hdec2, hany2, if_true, hfilter]
  refine ⟨hopen1, ?_, ?_, ?_, ?_, ?_⟩
  · simp only [hopen1]
    exact hopen2
  · simp only [hopen1, hopen2]
    exact hrefcount
  · simp only [hopen1, hopen2]
    exact hrel1
  · simp only [hopen1, hopen2, hrel1]
    exact hrel2
  · simp only [hopen1, hopen2, hrel1, hrel2]
    intro e he
    simp only [List.mem_filter, decide_eq_true_eq] at he
    exact ⟨Nat.ne_of_lt (hf e he.1), he.2⟩

/-- C5 witness: from the empty registry, two opens of descriptor 5 share
handle 0 (native open once, refcount 2), the first release closes nothing
and the second runs the native close under the lock, leaving an empty
cache. -/
theorem C5_witness :
    open_dev ⟨[], 0⟩ 5 = (0, ⟨[⟨5, 0, 1⟩], 1⟩,
      [.lockAcquire, .nativeOpen, .lockRelease]) ∧
    open_dev (open_dev ⟨[], 0⟩ 5).2.1 5 = ((open_dev ⟨[], 0⟩ 5).1,
      ⟨[⟨5, 0, 2⟩], 1⟩, [.lockAcquire, .lockRelease]) ∧
    refcountOf (open_dev (open_dev ⟨[], 0⟩ 5).2.1 5).2.1.devs
      (open_dev ⟨[], 0⟩ 5).1 = 2 ∧
    release (open_dev (open_dev ⟨[], 0⟩ 5).2.1 5).2.1
      (open_dev ⟨[], 0⟩ 5).1 = (⟨[⟨5, 0, 1⟩], 1⟩, []) ∧
    release (release (open_dev (open_dev ⟨[], 0⟩ 5).2.1 5).2.1
        (open_dev ⟨[], 0⟩ 5).1).1 (open_dev ⟨[], 0⟩ 5).1 =
      (⟨[], 1⟩, [.lockAcquire, .nativeClose, .lockRelease]) ∧
    ∀ e ∈ (release (release (open_dev (open_dev ⟨[], 0⟩ 5).2.1 5).2.1
        (open_dev ⟨[], 0⟩ 5).1).1 (open_dev ⟨[], 0⟩ 5).1).1.devs,
      e.handle ≠ (open_dev ⟨[], 0⟩ 5).1 ∧ 0 < e.refcount :=
  C5_registry_dedup_refcount_close ⟨[], 0⟩ 5 rfl (by simp)
